import Mathlib

/-!
Verification of the Channel (BIO) abstraction specified for this repository.

The sampled sources of the repository contain the BIO interface header
(`Sources/CCryptoBoringSSL/include/CCryptoBoringSSL_bio.h`): prototypes,
constants and documentation comments, but not the translation units that
implement them.  Following the specification, the Channel abstraction is
therefore modelled here as a shallow embedding: a channel handle is the
(acyclic) chain of links reachable from it, a null handle is the empty
chain, and each operation is a pure state transformer that additionally
returns a trace of backend-hook invocations so that hook-call ordering and
multiplicity are observable.
-/

/-- Outcome of a backend read hook, as classified by the ReadResult
taxonomy of the spec: data with bytes, end-of-file, a transient would-block, or a
permanent error.  The hook returns the successor backend state. -/
inductive ReadOutcome (σ : Type) where
  | data (bytes : List Nat) (s : Option σ)
  | eof (s : Option σ)
  | wouldBlock (s : Option σ)
  | err (s : Option σ)

/-- Outcome of a backend write hook: a number of bytes accepted, a transient
would-block, or a permanent error. -/
inductive WriteOutcome (σ : Type) where
  | written (n : Nat) (s : Option σ)
  | wouldBlock (s : Option σ)
  | err (s : Option σ)

/-- Result of `BIO_read` as seen by the caller. -/
inductive ReadResult where
  | data (bytes : List Nat)
  | eof
  | wouldBlock
  | err
  | notInitialized
  | unsupported
deriving DecidableEq, Repr

/-- Result of `BIO_write` as seen by the caller. -/
inductive WriteResult where
  | written (n : Nat)
  | wouldBlock
  | err
  | notInitialized
  | unsupported
deriving DecidableEq, Repr

/-- Modelled from the spec: the Method descriptor (the `BIO_METHOD` of the source, whose struct definition is not among the sampled sources).
Function-table entries may be absent (`none` models a NULL entry); the
return value of the destroy hook is ignored by the source, so only its presence
is recorded.  The create hook returns the initial backend state and the
`init` bit it establishes, or `none` on failure.  A ctrl hook returns the
`long` result, the successor state, and optionally a pointer value written
through the `parg` out-parameter. -/
structure Method (σ : Type) where
  type_tag : Int
  descr : String
  createFn : Option (Unit → Option (Option σ × Bool))
  destroyFn : Bool
  readFn : Option (Option σ → Nat → ReadOutcome σ)
  writeFn : Option (Option σ → List Nat → WriteOutcome σ)
  getsFn : Option (Option σ → Nat → ReadOutcome σ)
  ctrlFn : Option (Option σ → Int → Int → Int × Option σ × Option Nat)

/-- Modelled from the spec: one Channel record (the `struct bio_st` of the source,
not among the sampled sources): method descriptor, flag bitset, retry
reason, init and shutdown bits, opaque backend state (`none` models a NULL
data pointer), reference count, extension data and the two byte counters.
The `next` link is represented by the position of the record inside a
`Chain`. -/
structure Link (σ : Type) where
  method : Method σ
  flags : Nat
  retry_reason : Int
  init : Bool
  shutdown : Bool
  custom_state : Option σ
  ref_count : Nat
  ex_data : List (Nat × Nat)
  bytes_read : Nat
  bytes_written : Nat

/-- A channel handle: the list of links reachable through `next` from the
handle.  `[]` is the NULL handle; the head link is the channel itself and
the tail is the chain hanging off its `next` pointer. -/
abbrev Chain (σ : Type) := List (Link σ)

/-- Observable events of a run: destroy-hook invocation and memory release
(tagged with the backend state of the affected link) and I/O or control
hook invocations. -/
inductive Event (σ : Type) where
  | destroy (s : Option σ)
  | free (s : Option σ)
  | readHook
  | writeHook
  | ctrlHook
deriving DecidableEq, Repr

/-- `BIO_FLAGS_READ` from the header. -/
def BIO_FLAGS_READ : Nat := 0x01

/-- `BIO_FLAGS_WRITE` from the header. -/
def BIO_FLAGS_WRITE : Nat := 0x02

/-- `BIO_FLAGS_IO_SPECIAL` from the header. -/
def BIO_FLAGS_IO_SPECIAL : Nat := 0x04

/-- `BIO_FLAGS_SHOULD_RETRY` from the header. -/
def BIO_FLAGS_SHOULD_RETRY : Nat := 0x08

/-- The mask of the four retry-signalling bits,
`BIO_FLAGS_RWS | BIO_FLAGS_SHOULD_RETRY` = 0x0F. -/
def retryFlagsMask : Nat := 0x0F

/-- Clearing the four retry bits of a flag word (`flags &= ~0x0F` on a
non-negative flag word): zero the low four bits. -/
def clearRetryBits (f : Nat) : Nat := (f >>> 4) <<< 4

/-- Flag word of the head link; 0 for the NULL handle. -/
def headFlags {σ : Type} : Chain σ → Nat
  | [] => 0
  | l :: _ => l.flags

/-- Modelled from the spec: `BIO_test_flags` (implementation not among the
sampled sources) returns `bio->flags AND flags`. -/
def BIO_test_flags {σ : Type} (c : Chain σ) (m : Nat) : Nat := headFlags c &&& m

/-- Modelled from the spec: `BIO_should_retry` (implementation not among the
sampled sources) tests the should-retry flag. -/
def BIO_should_retry {σ : Type} (c : Chain σ) : Bool :=
  BIO_test_flags c BIO_FLAGS_SHOULD_RETRY != 0

/-- Modelled from the spec: `BIO_get_retry_flags` returns the four retry bits
of the flag word. -/
def BIO_get_retry_flags {σ : Type} (c : Chain σ) : Nat :=
  BIO_test_flags c retryFlagsMask

/-- Modelled from the spec: `BIO_get_retry_reason` returns the retry-reason
code of the channel. -/
def BIO_get_retry_reason {σ : Type} : Chain σ → Int
  | [] => 0
  | l :: _ => l.retry_reason

/-- Modelled from the spec: `BIO_number_read` returns the monotonic count of
bytes read from the channel. -/
def BIO_number_read {σ : Type} : Chain σ → Nat
  | [] => 0
  | l :: _ => l.bytes_read

/-- Modelled from the spec: `BIO_number_written` returns the monotonic count
of bytes written to the channel. -/
def BIO_number_written {σ : Type} : Chain σ → Nat
  | [] => 0
  | l :: _ => l.bytes_written

/-- Reference count of the head link; 0 for the NULL handle. -/
def headRefCount {σ : Type} : Chain σ → Nat
  | [] => 0
  | l :: _ => l.ref_count

/-- Modelled from the spec: `BIO_get_init` returns the init bit. -/
def BIO_get_init {σ : Type} : Chain σ → Bool
  | [] => false
  | l :: _ => l.init

/-- Modelled from the spec: `BIO_new` (implementation not among the sampled
sources) allocates a Channel bound to `m` with reference count one, flags
cleared and `init` false; if the create hook of the method is set it is invoked
to establish the backend state (and possibly the init bit), and creation
fails, yielding no object, when the hook reports failure. -/
def BIO_new {σ : Type} (m : Method σ) : Option (Chain σ) :=
  match m.createFn with
  | none => some [{ method := m, flags := 0, retry_reason := 0, init := false,
                    shutdown := false, custom_state := none, ref_count := 1,
                    ex_data := [], bytes_read := 0, bytes_written := 0 }]
  | some f =>
    match f () with
    | none => none
    | some (s, i) =>
      some [{ method := m, flags := 0, retry_reason := 0, init := i,
              shutdown := false, custom_state := s, ref_count := 1,
              ex_data := [], bytes_read := 0, bytes_written := 0 }]

/-- Modelled from the spec: `BIO_up_ref` (implementation not among the
sampled sources) increments the reference count of the channel. -/
def BIO_up_ref {σ : Type} : Chain σ → Chain σ
  | [] => []
  | l :: rest => { l with ref_count := l.ref_count + 1 } :: rest

/-- Modelled from the spec: `BIO_free` (implementation not among the sampled
sources) releases one reference.  On a NULL handle it is a no-op.  While
more than one reference remains it only decrements the count.  When the
count reaches zero it invokes the destroy hook of the method if set, recursively
releases the `next` link, and only then frees the own memory of the channel; the
returned chain is what the handle still designates (empty once destroyed)
and the trace records hook invocations and memory releases in order. -/
def BIO_free {σ : Type} : Chain σ → Chain σ × List (Event σ)
  | [] => ([], [])
  | l :: rest =>
    if 2 ≤ l.ref_count then
      ({ l with ref_count := l.ref_count - 1 } :: rest, [])
    else
      ([], (if l.method.destroyFn then [Event.destroy l.custom_state] else [])
            ++ (BIO_free rest).2 ++ [Event.free l.custom_state])

/-- Number of destroy-hook invocations recorded in a trace. -/
def destroyCount {σ : Type} (t : List (Event σ)) : Nat :=
  t.countP fun e => match e with
    | Event.destroy _ => true
    | _ => false

/-- Modelled from the spec: `BIO_read` (implementation not among the sampled
sources).  As its first effect the call clears the retry bits; it fails
with `NotInitialized` when `init` is false and with `Unsupported` when the
method has no read hook, in both cases without invoking any hook; otherwise
it forwards to the read hook of the method, records the invocation, updates
`bytes_read` on success and sets the read-pending and should-retry flags on
a would-block outcome. -/
def BIO_read {σ : Type} (c : Chain σ) (n : Nat) :
    ReadResult × Chain σ × List (Event σ) :=
  match c with
  | [] => (ReadResult.unsupported, [], [])
  | l :: rest =>
    if l.init = false then
      (ReadResult.notInitialized, { l with flags := clearRetryBits l.flags } :: rest, [])
    else
      match l.method.readFn with
      | none =>
        (ReadResult.unsupported, { l with flags := clearRetryBits l.flags } :: rest, [])
      | some f =>
        match f l.custom_state n with
        | ReadOutcome.data bs s =>
          (ReadResult.data bs,
           { l with flags := clearRetryBits l.flags, custom_state := s,
                    bytes_read := l.bytes_read + bs.length } :: rest,
           [Event.readHook])
        | ReadOutcome.eof s =>
          (ReadResult.eof,
           { l with flags := clearRetryBits l.flags, custom_state := s } :: rest,
           [Event.readHook])
        | ReadOutcome.wouldBlock s =>
          (ReadResult.wouldBlock,
           { l with flags := clearRetryBits l.flags
                              ||| (BIO_FLAGS_READ ||| BIO_FLAGS_SHOULD_RETRY),
                    custom_state := s } :: rest,
           [Event.readHook])
        | ReadOutcome.err s =>
          (ReadResult.err,
           { l with flags := clearRetryBits l.flags, custom_state := s } :: rest,
           [Event.readHook])

/-- Modelled from the spec: `BIO_write` (implementation not among the
sampled sources), symmetric to `BIO_read`: clears the retry bits first,
fails with `NotInitialized` before init and `Unsupported` without a write
hook, otherwise forwards to the hook, updates `bytes_written` on success
and sets the write-pending and should-retry flags on would-block. -/
def BIO_write {σ : Type} (c : Chain σ) (data : List Nat) :
    WriteResult × Chain σ × List (Event σ) :=
  match c with
  | [] => (WriteResult.unsupported, [], [])
  | l :: rest =>
    if l.init = false then
      (WriteResult.notInitialized, { l with flags := clearRetryBits l.flags } :: rest, [])
    else
      match l.method.writeFn with
      | none =>
        (WriteResult.unsupported, { l with flags := clearRetryBits l.flags } :: rest, [])
      | some f =>
        match f l.custom_state data with
        | WriteOutcome.written n s =>
          (WriteResult.written n,
           { l with flags := clearRetryBits l.flags, custom_state := s,
                    bytes_written := l.bytes_written + n } :: rest,
           [Event.writeHook])
        | WriteOutcome.wouldBlock s =>
          (WriteResult.wouldBlock,
           { l with flags := clearRetryBits l.flags
                              ||| (BIO_FLAGS_WRITE ||| BIO_FLAGS_SHOULD_RETRY),
                    custom_state := s } :: rest,
           [Event.writeHook])
        | WriteOutcome.err s =>
          (WriteResult.err,
           { l with flags := clearRetryBits l.flags, custom_state := s } :: rest,
           [Event.writeHook])

/-- Modelled from the spec: `BIO_write_all` (implementation not among the
sampled sources) repeatedly calls `BIO_write`, advancing an offset over the
buffer (dropping the bytes already accepted), until either every byte has
been written, in which case it reports success, or a write fails to make
progress, in which case it stops and reports failure. -/
def BIO_write_all {σ : Type} (c : Chain σ) (data : List Nat) :
    Bool × Chain σ × List (Event σ) :=
  if h : data = [] then (true, c, [])
  else
    match BIO_write c data with
    | (WriteResult.written n, c1, t) =>
      if h2 : 0 < n then
        let r := BIO_write_all c1 (data.drop n)
        (r.1, r.2.1, t ++ r.2.2)
      else (false, c1, t)
    | (_, c1, t) => (false, c1, t)
  termination_by data.length
  decreasing_by
    simp only [List.length_drop]
    have : data.length ≠ 0 := fun hz => h (List.length_eq_zero.mp hz)
    omega

/-- Modelled from the spec: `BIO_ctrl` (implementation not among the sampled
sources) dispatches a generic control request to the ctrl hook of the method,
returning the `long` result of the hook, the evolved channel, the pointer value
the hook wrote through `parg` (if any), and the hook-invocation trace.  On
a NULL handle it returns 0; when the hook is absent it returns the
unsupported sentinel -2 without invoking anything. -/
def BIO_ctrl {σ : Type} (c : Chain σ) (cmd : Int) (larg : Int) :
    Int × Chain σ × Option Nat × List (Event σ) :=
  match c with
  | [] => (0, [], none, [])
  | l :: rest =>
    match l.method.ctrlFn with
    | none => (-2, l :: rest, none, [])
    | some f =>
      match f l.custom_state cmd larg with
      | (r, s, w) => (r, { l with custom_state := s } :: rest, w, [Event.ctrlHook])

/-- Modelled from the spec: `BIO_ptr_ctrl` (implementation not among the
sampled sources) calls `BIO_ctrl` with the address of a NULL-initialised
pointer as `parg` and returns the value written into that slot, or NULL
whenever the control call returns a value less than or equal to 0. -/
def BIO_ptr_ctrl {σ : Type} (c : Chain σ) (cmd : Int) (larg : Int) :
    Option Nat × Chain σ :=
  match BIO_ctrl c cmd larg with
  | (r, c1, w, _) => (if r ≤ 0 then none else w, c1)

/-- Modelled from the spec: `BIO_flush` (implementation not among the
sampled sources) clears the retry bits and forwards to the control command
`BIO_CTRL_FLUSH` (11), succeeding when the control call returns a positive
value. -/
def BIO_flush {σ : Type} (c : Chain σ) : Bool × Chain σ × List (Event σ) :=
  match c with
  | [] => (false, [], [])
  | l :: rest =>
    match BIO_ctrl ({ l with flags := clearRetryBits l.flags } :: rest) 11 0 with
    | (r, c1, _, t) => (decide (0 < r), c1, t)

/-- Modelled from the spec: `BIO_push` (implementation not among the sampled
sources) walks to the end of the first chain and appends the second,
transferring the reference held by the caller into the chain; on the list
representation this is chain concatenation. -/
def BIO_push {σ : Type} (c app : Chain σ) : Chain σ := c ++ app

/-- Modelled from the spec: `BIO_pop` (implementation not among the sampled
sources) detaches the head channel from its chain and returns the remainder
of the chain (the former `next`), which is now a head of chain itself. -/
def BIO_pop {σ : Type} : Chain σ → Chain σ
  | [] => []
  | _ :: rest => rest

/-- Modelled from the spec: `BIO_next` returns the chain hanging off the
`next` link of the channel. -/
def BIO_next {σ : Type} : Chain σ → Chain σ
  | [] => []
  | _ :: rest => rest

/-- Modelled from the spec: `BIO_find_type` (implementation not among the
sampled sources) walks the chain forward and returns the first link whose
method type tag matches, or NULL (the empty chain) when no link matches. -/
def BIO_find_type {σ : Type} (c : Chain σ) (t : Int) : Chain σ :=
  c.dropWhile fun l => l.method.type_tag != t

/-- Modelled from the spec: `BIO_copy_next_retry` (implementation not among
the sampled sources) copies the four retry bits and the retry reason of the
next link in the chain onto the channel, leaving every other field of the
channel and the rest of the chain unchanged.  Without a next link the
channel is left as is. -/
def BIO_copy_next_retry {σ : Type} : Chain σ → Chain σ
  | [] => []
  | [l] => [l]
  | l :: nx :: rest =>
    { l with flags := clearRetryBits l.flags ||| (nx.flags &&& retryFlagsMask),
             retry_reason := nx.retry_reason } :: nx :: rest

/-- Backend state of a memory channel: the stored bytes and the configured
value returned by a read when the buffer is empty. -/
structure MemState where
  buf : List Nat
  eofValue : Int
deriving DecidableEq, Repr

/-- Modelled from the spec: the read hook of the memory backend (implementation
not among the sampled sources), following the documented contract of
`BIO_set_mem_eof_return`: reading consumes from the front of the buffer;
on an empty buffer it reports end-of-file when `eofValue` is 0 and
otherwise returns the configured negative value with the read-retry flag,
i.e. a would-block outcome. -/
def memRead (s : Option MemState) (n : Nat) : ReadOutcome MemState :=
  match s with
  | none => ReadOutcome.err none
  | some st =>
    if st.buf = [] then
      if st.eofValue = 0 then ReadOutcome.eof (some st)
      else ReadOutcome.wouldBlock (some st)
    else ReadOutcome.data (st.buf.take n) (some { st with buf := st.buf.drop n })

/-- Modelled from the spec: the write hook of the memory backend (implementation
not among the sampled sources): a writable memory channel accepts every
byte, appending to the stored buffer. -/
def memWrite (s : Option MemState) (data : List Nat) : WriteOutcome MemState :=
  match s with
  | none => WriteOutcome.err none
  | some st => WriteOutcome.written data.length (some { st with buf := st.buf ++ data })

/-- Modelled from the spec: the ctrl hook of the memory backend (implementation
not among the sampled sources): reset (1) clears the data, eof (2) tests
emptiness, pending (10) reports the stored byte count, flush (11) succeeds
trivially, and command 130 (`BIO_C_SET_BUF_MEM_EOF_RETURN`) implements
`BIO_set_mem_eof_return`; unrecognised commands return 0. -/
def memCtrl (s : Option MemState) (cmd : Int) (larg : Int) :
    Int × Option MemState × Option Nat :=
  match s with
  | none => (0, none, none)
  | some st =>
    if cmd = 1 then (1, some { st with buf := [] }, none)
    else if cmd = 2 then ((if st.buf = [] then 1 else 0), some st, none)
    else if cmd = 10 then ((st.buf.length : Int), some st, none)
    else if cmd = 11 then (1, some st, none)
    else if cmd = 130 then (1, some { st with eofValue := larg }, none)
    else (0, some st, none)

/-- Modelled from the spec: `BIO_s_mem` (implementation not among the
sampled sources), the writable memory method: type tag `BIO_TYPE_MEM`
(1 | 0x0400), create hook establishing an empty buffer with the documented
writable default `eofValue = -1` and the init bit set, and a destroy hook
releasing the buffer. -/
def BIO_s_mem : Method MemState :=
  { type_tag := 1025, descr := "memory buffer",
    createFn := some fun _ => some (some { buf := [], eofValue := -1 }, true),
    destroyFn := true,
    readFn := some memRead,
    writeFn := some memWrite,
    getsFn := none,
    ctrlFn := some memCtrl }

/-- Modelled from the spec: `BIO_set_mem_eof_return` reduces to the control
command 130 carrying the new empty-read value. -/
def BIO_set_mem_eof_return (c : Chain MemState) (v : Int) : Chain MemState :=
  (BIO_ctrl c 130 v).2.1

/-- The bytes of the string "hello". -/
def helloBytes : List Nat := [104, 101, 108, 108, 111]

/-- A freshly created writable memory channel. -/
def memChain0 : Chain MemState := (BIO_new BIO_s_mem).getD []

/-- The memory channel after writing "hello". -/
def memChain1 : Chain MemState := (BIO_write memChain0 helloBytes).2.1

/-- The memory channel after writing "hello" and reading it back through a
10-byte buffer. -/
def memChain2 : Chain MemState := (BIO_read memChain1 10).2.1

/-- The caller-visible classification of a read-hook outcome: how `BIO_read`
reports the result of the hook it forwarded to. -/
def readOutcomeRes {σ : Type} : ReadOutcome σ → ReadResult
  | ReadOutcome.data bs _ => ReadResult.data bs
  | ReadOutcome.eof _ => ReadResult.eof
  | ReadOutcome.wouldBlock _ => ReadResult.wouldBlock
  | ReadOutcome.err _ => ReadResult.err

/-- The caller-visible classification of a write-hook outcome: how
`BIO_write` reports the result of the hook it forwarded to. -/
def writeOutcomeRes {σ : Type} : WriteOutcome σ → WriteResult
  | WriteOutcome.written n _ => WriteResult.written n
  | WriteOutcome.wouldBlock _ => WriteResult.wouldBlock
  | WriteOutcome.err _ => WriteResult.err

/-- A minimal custom method with a given type tag, a destroy hook and no I/O
hooks, used to build concrete chains. -/
def mkMethod (tag : Int) : Method Nat :=
  { type_tag := tag, descr := "leaf backend", createFn := none, destroyFn := true,
    readFn := none, writeFn := none, getsFn := none, ctrlFn := none }

/-- A concrete initialized link with reference count one, the given type tag
and the given backend state. -/
def mkLink (tag : Int) (st : Nat) : Link Nat :=
  { method := mkMethod tag, flags := 0, retry_reason := 0, init := true,
    shutdown := false, custom_state := some st, ref_count := 1, ex_data := [],
    bytes_read := 0, bytes_written := 0 }

/-- A concrete read hook that always yields one byte of data. -/
def stubReadFn : Option Nat → Nat → ReadOutcome Nat :=
  fun s _ => ReadOutcome.data [42] s

/-- A concrete write hook that accepts every byte. -/
def stubWriteFn : Option Nat → List Nat → WriteOutcome Nat :=
  fun s data => WriteOutcome.written data.length s

/-- A concrete ctrl hook: command 7 succeeds and writes the pointer value 42
through the out-parameter, every other command reports 0. -/
def stubCtrlFn : Option Nat → Int → Int → Int × Option Nat × Option Nat :=
  fun s cmd _ => if cmd = 7 then (1, s, some 42) else (0, s, none)

/-- A concrete custom method using the stub hooks, initialized at creation. -/
def rwStubMethod : Method Nat :=
  { type_tag := 300, descr := "stub backend", createFn := some fun _ => some (some 7, true),
    destroyFn := false, readFn := some stubReadFn, writeFn := some stubWriteFn,
    getsFn := none, ctrlFn := some stubCtrlFn }

/-- A freshly created channel over the stub method. -/
def rwStubChain : Chain Nat := (BIO_new rwStubMethod).getD []

/-- The head link of the stub channel. -/
def rwStubLink : Link Nat := rwStubChain.headD (mkLink 0 0)

/-- A concrete link whose init bit is still false. -/
def uninitLink : Link Nat := { mkLink 301 5 with init := false }

/-- A concrete sink method whose write hook accepts exactly one byte per
call, so that writing a buffer through `BIO_write_all` must loop. -/
def oneByteMethod : Method Nat :=
  { type_tag := 200, descr := "one byte per call sink",
    createFn := some fun _ => some (some 0, true),
    destroyFn := true,
    readFn := none,
    writeFn := some fun s _ => WriteOutcome.written 1 s,
    getsFn := none,
    ctrlFn := none }

/-- A freshly created channel over the one-byte-per-call method. -/
def oneByteChain : Chain Nat := (BIO_new oneByteMethod).getD []

/-- A pass-through filter method over memory-channel state, with no hooks of
its own. -/
def filterMethodMS : Method MemState :=
  { type_tag := 521, descr := "pass-through filter", createFn := none, destroyFn := false,
    readFn := none, writeFn := none, getsFn := none, ctrlFn := none }

/-- A concrete filter link (with a method-specific high flag bit set, to
observe that copying retry state preserves unrelated bits). -/
def filterLinkMS : Link MemState :=
  { method := filterMethodMS, flags := 0x100, retry_reason := 0, init := true,
    shutdown := false, custom_state := none, ref_count := 1, ex_data := [],
    bytes_read := 0, bytes_written := 0 }

/-- The memory link after its empty-buffer read reported would-block: its
read-retry and should-retry flags are set. -/
def wbMemLink : Link MemState := ((BIO_read memChain2 10).2.1).headD filterLinkMS

lemma and_eight (x : Nat) : x &&& 8 = (x.testBit 3).toNat * 8 := by
  rw [show (8 : Nat) = 2 ^ 3 from rfl, Nat.and_two_pow]

lemma bne_zero_of_bit3 {x : Nat} (h : x.testBit 3 = true) : (x &&& 8 != 0) = true := by
  rw [and_eight, h]
  simp

lemma bne_zero_of_not_bit3 {x : Nat} (h : x.testBit 3 = false) : (x &&& 8 != 0) = false := by
  rw [and_eight, h]
  simp

lemma clearRetryBits_testBit_lt (f : Nat) (i : Nat) (h : i < 4) :
    (clearRetryBits f).testBit i = false := by
  simp [clearRetryBits, Nat.testBit_shiftLeft, Nat.not_le.2 h]

lemma clearRetryBits_testBit_ge (f : Nat) (i : Nat) (h : 4 ≤ i) :
    (clearRetryBits f).testBit i = f.testBit i := by
  simp [clearRetryBits, Nat.testBit_shiftLeft, Nat.testBit_shiftRight, h]

lemma clearRetryBits_no_retry (f : Nat) : ((clearRetryBits f) &&& 8 != 0) = false :=
  bne_zero_of_not_bit3 (clearRetryBits_testBit_lt f 3 (by omega))

lemma or_retry_bit3 (f m : Nat) (hm : m.testBit 3 = true) :
    ((f ||| m) &&& 8 != 0) = true := by
  apply bne_zero_of_bit3
  simp [Nat.testBit_or, hm]

lemma retry_read_set (f : Nat) :
    ((f ||| (BIO_FLAGS_READ ||| BIO_FLAGS_SHOULD_RETRY)) &&& 8 != 0) = true :=
  or_retry_bit3 f _ (by decide)

lemma retry_write_set (f : Nat) :
    ((f ||| (BIO_FLAGS_WRITE ||| BIO_FLAGS_SHOULD_RETRY)) &&& 8 != 0) = true :=
  or_retry_bit3 f _ (by decide)

lemma shouldRetry_cons {σ : Type} (l : Link σ) (rest : Chain σ) :
    BIO_should_retry (l :: rest) = (l.flags &&& 8 != 0) := rfl

lemma testBit_fifteen (i : Nat) : (15 : Nat).testBit i = decide (i < 4) := by
  rw [show (15 : Nat) = 2 ^ 4 - 1 from rfl, Nat.testBit_two_pow_sub_one]

lemma copy_low_bits (a b : Nat) :
    (clearRetryBits a ||| (b &&& 15)) &&& 15 = b &&& 15 := by
  apply Nat.eq_of_testBit_eq
  intro i
  by_cases h : i < 4
  · simp [Nat.testBit_and, Nat.testBit_or, clearRetryBits_testBit_lt a i h, testBit_fifteen, h]
  · simp [Nat.testBit_and, Nat.testBit_or, testBit_fifteen, h]

lemma copy_bit3 (a b : Nat) :
    (clearRetryBits a ||| (b &&& 15)).testBit 3 = b.testBit 3 := by
  simp [Nat.testBit_or, Nat.testBit_and, clearRetryBits_testBit_lt a 3 (by omega),
        testBit_fifteen]

lemma copy_high_bits (a b : Nat) {i : Nat} (h : 4 ≤ i) :
    (clearRetryBits a ||| (b &&& 15)).testBit i = a.testBit i := by
  simp [Nat.testBit_or, Nat.testBit_and, clearRetryBits_testBit_ge a i h, testBit_fifteen,
        Nat.not_lt.mpr h]

lemma bne8_congr {x y : Nat} (h : x.testBit 3 = y.testBit 3) :
    (x &&& 8 != 0) = (y &&& 8 != 0) := by
  rw [and_eight, and_eight, h]

lemma BIO_free_all_ones {σ : Type} :
    ∀ c : Chain σ, (∀ l ∈ c, l.ref_count = 1 ∧ l.method.destroyFn = true) →
      BIO_free c = ([], c.map (fun l => Event.destroy l.custom_state)
                        ++ c.reverse.map (fun l => Event.free l.custom_state))
  | [], _ => by simp [BIO_free]
  | l :: rest, h => by
    have h1 := h l (List.mem_cons_self l rest)
    have hr := BIO_free_all_ones rest (fun x hx => h x (List.mem_cons_of_mem _ hx))
    simp [BIO_free, h1.1, h1.2, hr]

lemma oneByte_write_all_trace (data : List Nat) :
    ∀ (l : Link Nat) (rest : Chain Nat), l.method = oneByteMethod → l.init = true →
      (BIO_write_all (l :: rest) data).2.2.length = data.length := by
  induction data with
  | nil =>
    intro l rest hm hi
    simp [BIO_write_all]
  | cons d ds ih =>
    intro l rest hm hi
    have hw : BIO_write (l :: rest) (d :: ds)
        = (WriteResult.written 1,
           { l with flags := clearRetryBits l.flags, custom_state := l.custom_state,
                    bytes_written := l.bytes_written + 1 } :: rest,
           [Event.writeHook]) := by
      simp [BIO_write, hi, hm, oneByteMethod]
    rw [BIO_write_all]
    simp only [hw, List.cons_ne_self, reduceCtorEq, List.drop_succ_cons, List.drop_zero]
    have hrec := ih { l with flags := clearRetryBits l.flags, custom_state := l.custom_state,
                             bytes_written := l.bytes_written + 1 } rest (by simp [hm]) (by simp [hi])
    simp [hrec]

/-- C1: for every channel, release decrements the reference count; exactly
when the count reaches zero it first invokes the destroy hook of the method
(if set) on the backend state, then recursively releases the next link of
the chain — so that freeing the head of a chain of singly referenced links
runs every destroy hook in head-to-tail order and frees every link — and
only then frees the own memory of the channel; releasing a null handle is a
no-op. -/
theorem c1_release_semantics {σ : Type} :
    (BIO_free ([] : Chain σ) = ([], []))
  ∧ (∀ (l : Link σ) (rest : Chain σ), 2 ≤ l.ref_count →
      BIO_free (l :: rest) = ({ l with ref_count := l.ref_count - 1 } :: rest, []))
  ∧ (∀ (l : Link σ) (rest : Chain σ), l.ref_count = 1 →
      BIO_free (l :: rest) =
        ([], (if l.method.destroyFn then [Event.destroy l.custom_state] else [])
              ++ (BIO_free rest).2 ++ [Event.free l.custom_state]))
  ∧ (∀ c : Chain σ, c ≠ [] → (∀ l ∈ c, l.ref_count = 1 ∧ l.method.destroyFn = true) →
      BIO_free c = ([], c.map (fun l => Event.destroy l.custom_state)
                        ++ c.reverse.map (fun l => Event.free l.custom_state))) := by
  refine ⟨by simp [BIO_free], fun l rest h => ?_, fun l rest h => ?_,
          fun c _ h => BIO_free_all_ones c h⟩
  · simp [BIO_free, h]
  · simp [BIO_free, h]

theorem c1_release_semantics_witness :
    (2 ≤ ({ mkLink 11 1 with ref_count := 2 }).ref_count
      ∧ BIO_free [{ mkLink 11 1 with ref_count := 2 }, mkLink 12 2]
          = ([{ mkLink 11 1 with ref_count := 1 }, mkLink 12 2], []))
  ∧ BIO_free [mkLink 11 1, mkLink 12 2]
      = ([], [Event.destroy (some 1), Event.destroy (some 2),
              Event.free (some 2), Event.free (some 1)]) :=
  ⟨⟨by decide, c1_release_semantics.2.1 { mkLink 11 1 with ref_count := 2 } [mkLink 12 2]
      (by decide)⟩,
   c1_release_semantics.2.2.2 [mkLink 11 1, mkLink 12 2]
     (List.cons_ne_nil _ _) (by decide)⟩

/-- C2: a channel created by the factory carries reference count one; for a
channel created with a method whose destroy hook is set and never retained
afterwards, a single release invokes the destroy hook exactly once — never
zero times and never twice; more generally, releasing a channel destroys it
exactly when its reference count reaches 0, and a merely decremented
channel keeps a count of at least one and fires no destroy hook. -/
theorem c2_single_destroy {σ : Type} :
    (∀ (m : Method σ) (c : Chain σ), BIO_new m = some c → headRefCount c = 1)
  ∧ (∀ (m : Method σ) (c : Chain σ), BIO_new m = some c → m.destroyFn = true →
      destroyCount (BIO_free c).2 = 1 ∧ (BIO_free c).1 = [])
  ∧ (∀ (l : Link σ) (rest : Chain σ), 1 ≤ l.ref_count →
      ((BIO_free (l :: rest)).1 = [] ↔ l.ref_count = 1))
  ∧ (∀ (l : Link σ) (rest : Chain σ), 2 ≤ l.ref_count →
      destroyCount (BIO_free (l :: rest)).2 = 0
        ∧ 1 ≤ headRefCount (BIO_free (l :: rest)).1) := by
  refine ⟨fun m c hc => ?_, fun m c hc hd => ?_, fun l rest h => ?_, fun l rest h => ?_⟩
  · cases hcf : m.createFn with
    | none =>
      simp [BIO_new, hcf] at hc
      simp [← hc, headRefCount]
    | some f =>
      cases hf : f () with
      | none => simp [BIO_new, hcf, hf] at hc
      | some si =>
        rcases si with ⟨s, i⟩
        simp [BIO_new, hcf, hf] at hc
        simp [← hc, headRefCount]
  · cases hcf : m.createFn with
    | none =>
      simp [BIO_new, hcf] at hc
      subst hc
      simp [BIO_free, hd, destroyCount]
    | some f =>
      cases hf : f () with
      | none => simp [BIO_new, hcf, hf] at hc
      | some si =>
        rcases si with ⟨s, i⟩
        simp [BIO_new, hcf, hf] at hc
        subst hc
        simp [BIO_free, hd, destroyCount]
  · constructor
    · intro hfree
      by_contra hne
      have h2 : 2 ≤ l.ref_count := by omega
      simp [BIO_free, h2] at hfree
    · intro h1
      simp [BIO_free, h1]
  · simp [BIO_free, h, destroyCount, headRefCount]
    omega

theorem c2_single_destroy_witness :
    BIO_new BIO_s_mem = some memChain0 ∧ BIO_s_mem.destroyFn = true
  ∧ (destroyCount (BIO_free memChain0).2 = 1 ∧ (BIO_free memChain0).1 = []) :=
  ⟨rfl, rfl, c2_single_destroy.2.1 BIO_s_mem memChain0 rfl rfl⟩

/-- C3: for every channel whose init flag is false, read and write fail with
the NotInitialized error and invoke no hook; once init is true and the
corresponding hook is present, read forwards to the read hook of the method
(invoking it exactly once and reporting its outcome), and write does so
symmetrically. -/
theorem c3_init_gate {σ : Type} :
    (∀ (l : Link σ) (rest : Chain σ) (n : Nat), l.init = false →
        (BIO_read (l :: rest) n).1 = ReadResult.notInitialized
          ∧ (BIO_read (l :: rest) n).2.2 = [])
  ∧ (∀ (l : Link σ) (rest : Chain σ) (n : Nat) f, l.init = true → l.method.readFn = some f →
        (BIO_read (l :: rest) n).1 = readOutcomeRes (f l.custom_state n)
          ∧ (BIO_read (l :: rest) n).2.2 = [Event.readHook])
  ∧ (∀ (l : Link σ) (rest : Chain σ) (data : List Nat), l.init = false →
        (BIO_write (l :: rest) data).1 = WriteResult.notInitialized
          ∧ (BIO_write (l :: rest) data).2.2 = [])
  ∧ (∀ (l : Link σ) (rest : Chain σ) (data : List Nat) f, l.init = true →
        l.method.writeFn = some f →
        (BIO_write (l :: rest) data).1 = writeOutcomeRes (f l.custom_state data)
          ∧ (BIO_write (l :: rest) data).2.2 = [Event.writeHook]) := by
  refine ⟨fun l rest n h => ?_, fun l rest n f hi hf => ?_,
          fun l rest data h => ?_, fun l rest data f hi hf => ?_⟩
  · simp [BIO_read, h]
  · cases hfc : f l.custom_state n <;> simp [BIO_read, hi, hf, hfc, readOutcomeRes]
  · simp [BIO_write, h]
  · cases hfc : f l.custom_state data <;> simp [BIO_write, hi, hf, hfc, writeOutcomeRes]

theorem c3_init_gate_witness :
    (uninitLink.init = false ∧ rwStubLink.init = true)
  ∧ ((BIO_read [uninitLink] 4).1 = ReadResult.notInitialized
      ∧ (BIO_read [uninitLink] 4).2.2 = [])
  ∧ ((BIO_read [rwStubLink] 4).1 = readOutcomeRes (stubReadFn rwStubLink.custom_state 4)
      ∧ (BIO_read [rwStubLink] 4).2.2 = [Event.readHook])
  ∧ ((BIO_write [uninitLink] helloBytes).1 = WriteResult.notInitialized
      ∧ (BIO_write [uninitLink] helloBytes).2.2 = [])
  ∧ ((BIO_write [rwStubLink] helloBytes).1
        = writeOutcomeRes (stubWriteFn rwStubLink.custom_state helloBytes)
      ∧ (BIO_write [rwStubLink] helloBytes).2.2 = [Event.writeHook]) :=
  ⟨⟨rfl, rfl⟩,
   c3_init_gate.1 uninitLink [] 4 rfl,
   c3_init_gate.2.1 rwStubLink [] 4 stubReadFn rfl rfl,
   c3_init_gate.2.2.1 uninitLink [] helloBytes rfl,
   c3_init_gate.2.2.2 rwStubLink [] helloBytes stubWriteFn rfl rfl⟩

/-- C4: write_all on an empty remainder reports success without calling
write; on a successful partial write of n > 0 bytes it recurses on the
buffer with the first n bytes dropped (advancing the offset), accumulating
the traces; on an error or a propagated would-block it stops and reports
failure; read, write and flush each invoke at most one hook call per
invocation, while write_all over a one-byte-per-call sink performs exactly
one write-hook call per byte — it is the only looping operation. -/
theorem c4_write_all_loop : (∀ {σ : Type} (c : Chain σ), BIO_write_all c [] = (true, c, []))
  ∧ (∀ {σ : Type} (c : Chain σ) (data : List Nat) (n : Nat) (c1 : Chain σ)
       (t : List (Event σ)), data ≠ [] → 0 < n →
      BIO_write c data = (WriteResult.written n, c1, t) →
      BIO_write_all c data
        = ((BIO_write_all c1 (data.drop n)).1, (BIO_write_all c1 (data.drop n)).2.1,
           t ++ (BIO_write_all c1 (data.drop n)).2.2))
  ∧ (∀ {σ : Type} (c : Chain σ) (data : List Nat) (c1 : Chain σ) (t : List (Event σ)),
      data ≠ [] → BIO_write c data = (WriteResult.err, c1, t) →
      BIO_write_all c data = (false, c1, t))
  ∧ (∀ {σ : Type} (c : Chain σ) (data : List Nat) (c1 : Chain σ) (t : List (Event σ)),
      data ≠ [] → BIO_write c data = (WriteResult.wouldBlock, c1, t) →
      BIO_write_all c data = (false, c1, t))
  ∧ (∀ {σ : Type} (c : Chain σ) (n : Nat), (BIO_read c n).2.2.length ≤ 1)
  ∧ (∀ {σ : Type} (c : Chain σ) (data : List Nat), (BIO_write c data).2.2.length ≤ 1)
  ∧ (∀ {σ : Type} (c : Chain σ), (BIO_flush c).2.2.length ≤ 1)
  ∧ (∀ data : List Nat, (BIO_write_all oneByteChain data).2.2.length = data.length) := by
  refine ⟨fun c => by simp [BIO_write_all], ?_, ?_, ?_, ?_, ?_, ?_, ?_⟩
  · intro σ c data n c1 t hne hn hw
    rw [BIO_write_all]
    simp [hne, hw, hn]
  · intro σ c data c1 t hne hw
    rw [BIO_write_all]
    simp [hne, hw]
  · intro σ c data c1 t hne hw
    rw [BIO_write_all]
    simp [hne, hw]
  · intro σ c n
    match c with
    | [] => simp [BIO_read]
    | l :: rest =>
      cases hi : l.init with
      | false => simp [BIO_read, hi]
      | true =>
        cases hf : l.method.readFn with
        | none => simp [BIO_read, hi, hf]
        | some f => cases hfc : f l.custom_state n <;> simp [BIO_read, hi, hf, hfc]
  · intro σ c data
    match c with
    | [] => simp [BIO_write]
    | l :: rest =>
      cases hi : l.init with
      | false => simp [BIO_write, hi]
      | true =>
        cases hf : l.method.writeFn with
        | none => simp [BIO_write, hi, hf]
        | some f => cases hfc : f l.custom_state data <;> simp [BIO_write, hi, hf, hfc]
  · intro σ c
    match c with
    | [] => simp [BIO_flush]
    | l :: rest =>
      cases hf : l.method.ctrlFn with
      | none => simp [BIO_flush, BIO_ctrl, hf]
      | some f =>
        rcases hfc : f l.custom_state 11 0 with ⟨r, s, w⟩
        simp [BIO_flush, BIO_ctrl, hf, hfc]
  · intro data
    exact oneByte_write_all_trace data _ [] rfl rfl

theorem c4_write_all_loop_witness :
    (([5, 6] : List Nat) ≠ [] ∧ 0 < 1)
  ∧ BIO_write_all oneByteChain [5, 6]
      = ((BIO_write_all ((BIO_write oneByteChain [5, 6]).2.1) ([5, 6].drop 1)).1,
         (BIO_write_all ((BIO_write oneByteChain [5, 6]).2.1) ([5, 6].drop 1)).2.1,
         (BIO_write oneByteChain [5, 6]).2.2
           ++ (BIO_write_all ((BIO_write oneByteChain [5, 6]).2.1) ([5, 6].drop 1)).2.2) :=
  ⟨⟨by decide, by decide⟩,
   c4_write_all_loop.2.1 oneByteChain [5, 6] 1 ((BIO_write oneByteChain [5, 6]).2.1)
     ((BIO_write oneByteChain [5, 6]).2.2) (by decide) (by decide) rfl⟩

/-- C5 (counterexample): on a freshly created writable memory channel,
after writing "hello" and reading it back, the further read on the
now-empty channel does not report Eof — it reports a retryable would-block,
because the documented default empty-read value of a writable memory
channel is -1 with the read-retry flag, not end-of-file. -/
theorem c5_memory_eof_counterexample :
    (BIO_read memChain2 10).1 = ReadResult.wouldBlock
  ∧ (BIO_read memChain2 10).1 ≠ ReadResult.eof := by decide

/-- C5 (amended): for a freshly created writable memory channel, writing the
5 bytes "hello" reports 5 bytes written and leaves bytes_written = 5; a
subsequent read into a 10-byte buffer reports 5 bytes read equal to
"hello"; a further read on the now-empty channel reports a retryable
would-block with the should-retry flag set (the documented writable default
eof_value = -1), and reports Eof once the channel is configured with
eof_value = 0. -/
theorem c5_memory_scenario_amended :
    (BIO_write memChain0 helloBytes).1 = WriteResult.written 5
  ∧ BIO_number_written memChain1 = 5
  ∧ (BIO_read memChain1 10).1 = ReadResult.data helloBytes
  ∧ (BIO_read memChain2 10).1 = ReadResult.wouldBlock
  ∧ BIO_should_retry (BIO_read memChain2 10).2.1 = true
  ∧ (BIO_read (BIO_set_mem_eof_return memChain2 0) 10).1 = ReadResult.eof := by decide

/-- C6: for any three links A, B, C, pushing B then C onto A builds the
chain A, B, C; when the type tags of A and B differ from that of C,
find_by_type with the tag of C returns the chain headed by C; find_by_type
with a tag present in no link returns the null chain, not an error; and pop
on the head returns the chain headed by B, a usable standalone
head-of-chain channel. -/
theorem c6_chain_ops {σ : Type} : ∀ (A B C : Link σ),
    (BIO_push (BIO_push [A] [B]) [C] = [A, B, C])
  ∧ (A.method.type_tag ≠ C.method.type_tag → B.method.type_tag ≠ C.method.type_tag →
      BIO_find_type [A, B, C] C.method.type_tag = [C])
  ∧ (∀ t : Int, A.method.type_tag ≠ t → B.method.type_tag ≠ t → C.method.type_tag ≠ t →
      BIO_find_type [A, B, C] t = [])
  ∧ (BIO_pop [A, B, C] = [B, C]) := by
  intro A B C
  refine ⟨rfl, fun hA hB => ?_, fun t hA hB hC => ?_, rfl⟩
  · have a : (A.method.type_tag != C.method.type_tag) = true := by simp [hA]
    have b : (B.method.type_tag != C.method.type_tag) = true := by simp [hB]
    simp [BIO_find_type, List.dropWhile, a, b]
  · have a : (A.method.type_tag != t) = true := by simp [hA]
    have b : (B.method.type_tag != t) = true := by simp [hB]
    have cc : (C.method.type_tag != t) = true := by simp [hC]
    simp [BIO_find_type, List.dropWhile, a, b, cc]

theorem c6_chain_ops_witness :
    ((mkLink 21 1).method.type_tag ≠ (mkLink 23 3).method.type_tag
      ∧ (mkLink 22 2).method.type_tag ≠ (mkLink 23 3).method.type_tag)
  ∧ BIO_find_type [mkLink 21 1, mkLink 22 2, mkLink 23 3] (mkLink 23 3).method.type_tag
      = [mkLink 23 3]
  ∧ BIO_find_type [mkLink 21 1, mkLink 22 2, mkLink 23 3] 999 = []
  ∧ BIO_pop [mkLink 21 1, mkLink 22 2, mkLink 23 3] = [mkLink 22 2, mkLink 23 3] :=
  ⟨⟨by decide, by decide⟩,
   (c6_chain_ops (mkLink 21 1) (mkLink 22 2) (mkLink 23 3)).2.1 (by decide) (by decide),
   (c6_chain_ops (mkLink 21 1) (mkLink 22 2) (mkLink 23 3)).2.2.1 999
     (by decide) (by decide) (by decide),
   (c6_chain_ops (mkLink 21 1) (mkLink 22 2) (mkLink 23 3)).2.2.2⟩

/-- C7: after every read, write or flush call, the should-retry flag of the
channel reflects exactly the outcome of that call — it is set precisely
when the call reported would-block (and flush, which cannot block in this
model, always leaves it cleared) — so inspecting the flag immediately after
any such call never observes a stale value from an earlier call. -/
theorem c7_retry_flag_current {σ : Type} :
    (∀ (c : Chain σ) (n : Nat),
        BIO_should_retry (BIO_read c n).2.1
          = decide ((BIO_read c n).1 = ReadResult.wouldBlock))
  ∧ (∀ (c : Chain σ) (data : List Nat),
        BIO_should_retry (BIO_write c data).2.1
          = decide ((BIO_write c data).1 = WriteResult.wouldBlock))
  ∧ (∀ c : Chain σ, BIO_should_retry (BIO_flush c).2.1 = false) := by
  refine ⟨fun c n => ?_, fun c data => ?_, fun c => ?_⟩
  · match c with
    | [] => simp [BIO_read, BIO_should_retry, BIO_test_flags, headFlags]
    | l :: rest =>
      cases hi : l.init with
      | false => simp [BIO_read, hi, shouldRetry_cons, clearRetryBits_no_retry]
      | true =>
        cases hf : l.method.readFn with
        | none => simp [BIO_read, hi, hf, shouldRetry_cons, clearRetryBits_no_retry]
        | some f =>
          cases hfc : f l.custom_state n <;>
            simp [BIO_read, hi, hf, hfc, shouldRetry_cons, clearRetryBits_no_retry,
                  retry_read_set]
  · match c with
    | [] => simp [BIO_write, BIO_should_retry, BIO_test_flags, headFlags]
    | l :: rest =>
      cases hi : l.init with
      | false => simp [BIO_write, hi, shouldRetry_cons, clearRetryBits_no_retry]
      | true =>
        cases hf : l.method.writeFn with
        | none => simp [BIO_write, hi, hf, shouldRetry_cons, clearRetryBits_no_retry]
        | some f =>
          cases hfc : f l.custom_state data <;>
            simp [BIO_write, hi, hf, hfc, shouldRetry_cons, clearRetryBits_no_retry,
                  retry_write_set]
  · match c with
    | [] => simp [BIO_flush, BIO_should_retry, BIO_test_flags, headFlags]
    | l :: rest =>
      cases hf : l.method.ctrlFn with
      | none => simp [BIO_flush, BIO_ctrl, hf, shouldRetry_cons, clearRetryBits_no_retry]
      | some f =>
        rcases hfc : f l.custom_state 11 0 with ⟨r, s, w⟩
        simp [BIO_flush, BIO_ctrl, hf, hfc, shouldRetry_cons, clearRetryBits_no_retry]

/-- C8: for every channel whose reference count respects the liveness
invariant (at least one reference), performing retain and then release
restores the channel exactly: every field — flags, init, next chain,
custom state, byte counters, extension data and even the reference count —
is identical before and after the pair, and no destroy or free event is
emitted; on the null handle the pair is a no-op as well. -/
theorem c8_retain_release_frame {σ : Type} :
    (BIO_free (BIO_up_ref ([] : Chain σ)) = ([], []))
  ∧ (∀ (l : Link σ) (rest : Chain σ), 1 ≤ l.ref_count →
      BIO_free (BIO_up_ref (l :: rest)) = (l :: rest, [])) := by
  refine ⟨by simp [BIO_up_ref, BIO_free], fun l rest h => ?_⟩
  have h2 : 2 ≤ l.ref_count + 1 := by omega
  cases l
  simp [BIO_up_ref, BIO_free, h2]

theorem c8_retain_release_frame_witness :
    1 ≤ (mkLink 31 0).ref_count
  ∧ BIO_free (BIO_up_ref [mkLink 31 0]) = ([mkLink 31 0], []) :=
  ⟨by decide, c8_retain_release_frame.2 (mkLink 31 0) [] (by decide)⟩

/-- C9: for every channel with a next link, copy_retry_from_next sets the
four retry bits (read-pending, write-pending, io-special, should-retry) and
the retry reason of the channel to those of the next link — in particular
the should-retry flag of the channel mirrors that of the next link, e.g.
after the next link reported would-block — and it modifies nothing else:
the flag bits above the retry nibble are preserved, every other head field
is unchanged, and the rest of the chain is untouched. -/
theorem c9_copy_next_retry {σ : Type} : ∀ (l nx : Link σ) (rest : Chain σ),
    (BIO_copy_next_retry (l :: nx :: rest)
       = { l with flags := clearRetryBits l.flags ||| (nx.flags &&& retryFlagsMask),
                  retry_reason := nx.retry_reason } :: nx :: rest)
  ∧ (BIO_get_retry_flags (BIO_copy_next_retry (l :: nx :: rest))
       = BIO_get_retry_flags (nx :: rest))
  ∧ (BIO_should_retry (BIO_copy_next_retry (l :: nx :: rest))
       = BIO_should_retry (nx :: rest))
  ∧ (BIO_get_retry_reason (BIO_copy_next_retry (l :: nx :: rest)) = nx.retry_reason)
  ∧ (∀ i : Nat, 4 ≤ i →
      (headFlags (BIO_copy_next_retry (l :: nx :: rest))).testBit i = l.flags.testBit i)
  ∧ (BIO_next (BIO_copy_next_retry (l :: nx :: rest)) = nx :: rest) := by
  intro l nx rest
  refine ⟨rfl, ?_, ?_, rfl, fun i hi => ?_, rfl⟩
  · show (clearRetryBits l.flags ||| (nx.flags &&& retryFlagsMask)) &&& retryFlagsMask
        = nx.flags &&& retryFlagsMask
    exact copy_low_bits l.flags nx.flags
  · show ((clearRetryBits l.flags ||| (nx.flags &&& retryFlagsMask)) &&& 8 != 0)
        = (nx.flags &&& 8 != 0)
    exact bne8_congr (copy_bit3 l.flags nx.flags)
  · show (clearRetryBits l.flags ||| (nx.flags &&& retryFlagsMask)).testBit i
        = l.flags.testBit i
    exact copy_high_bits l.flags nx.flags hi

theorem c9_copy_next_retry_witness :
    (BIO_should_retry (BIO_copy_next_retry [filterLinkMS, wbMemLink])
        = BIO_should_retry [wbMemLink])
  ∧ BIO_should_retry [wbMemLink] = true
  ∧ BIO_get_retry_reason (BIO_copy_next_retry [filterLinkMS, wbMemLink])
        = wbMemLink.retry_reason
  ∧ (4 ≤ 8
      ∧ (headFlags (BIO_copy_next_retry [filterLinkMS, wbMemLink])).testBit 8
          = filterLinkMS.flags.testBit 8) :=
  ⟨(c9_copy_next_retry filterLinkMS wbMemLink []).2.2.1,
   by decide,
   (c9_copy_next_retry filterLinkMS wbMemLink []).2.2.2.1,
   by decide,
   (c9_copy_next_retry filterLinkMS wbMemLink []).2.2.2.2.1 8 (by decide)⟩

/-- C10: for every channel, command code and integer argument, the
pointer-returning control wrapper invokes the generic control operation
with a pointer slot as the pointer argument, evolves the channel exactly as
the control operation does, and returns the pointer value written into the
slot — except that whenever the control call returns a value less than or
equal to 0 the wrapper returns null instead. -/
theorem c10_ptr_ctrl {σ : Type} : ∀ (c : Chain σ) (cmd larg : Int),
    ((BIO_ctrl c cmd larg).1 ≤ 0 → (BIO_ptr_ctrl c cmd larg).1 = none)
  ∧ (0 < (BIO_ctrl c cmd larg).1 →
      (BIO_ptr_ctrl c cmd larg).1 = (BIO_ctrl c cmd larg).2.2.1)
  ∧ ((BIO_ptr_ctrl c cmd larg).2 = (BIO_ctrl c cmd larg).2.1) := by
  intro c cmd larg
  rcases hc : BIO_ctrl c cmd larg with ⟨r, c1, w, t⟩
  refine ⟨fun h => ?_, fun h => ?_, ?_⟩
  · simp at h
    simp [BIO_ptr_ctrl, hc, h]
  · simp at h
    simp [BIO_ptr_ctrl, hc, Int.not_le.mpr h]
  · by_cases h : r ≤ 0 <;> simp [BIO_ptr_ctrl, hc, h]

theorem c10_ptr_ctrl_witness :
    ((BIO_ctrl rwStubChain 9 0).1 ≤ 0 ∧ (BIO_ptr_ctrl rwStubChain 9 0).1 = none)
  ∧ (0 < (BIO_ctrl rwStubChain 7 0).1
      ∧ (BIO_ptr_ctrl rwStubChain 7 0).1 = (BIO_ctrl rwStubChain 7 0).2.2.1
      ∧ (BIO_ptr_ctrl rwStubChain 7 0).1 = some 42)
  ∧ (BIO_ptr_ctrl rwStubChain 9 0).2 = (BIO_ctrl rwStubChain 9 0).2.1 :=
  ⟨⟨by decide, (c10_ptr_ctrl rwStubChain 9 0).1 (by decide)⟩,
   ⟨by decide, (c10_ptr_ctrl rwStubChain 7 0).2.1 (by decide), by decide⟩,
   (c10_ptr_ctrl rwStubChain 9 0).2.2⟩
